import Mathlib

/-!
Verification of the trip-sass import-resolution and build-graph integration
algorithm, shallowly embedded from the repository sources
(`src/src/index.js` and the unnamed sibling `src/unnamed/part_000`, the
fuller of the two versions).  Paths are modelled as plain strings over the
posix separator, in line with the fake absolute base the code uses.
-/

namespace TripSass

/-! ### Path helpers (embedding of the Node `path` posix functions, as used here) -/

/-- Splits a character list on the path separator.  Always returns a nonempty
list of segments; `splitSlash "a/b"` is `[['a'], ['b']]`. -/
def splitSlash : List Char → List (List Char)
  | [] => [[]]
  | c :: rest =>
    match splitSlash rest with
    | [] => [[]]
    | seg :: segs => if c = '/' then [] :: seg :: segs else (c :: seg) :: segs

/-- Removes trailing path separators, as Node's `path.basename` and
`path.dirname` do before isolating the last segment. -/
def stripTrailingSlashes (l : List Char) : List Char :=
  (l.reverse.dropWhile (· == '/')).reverse

/-- Embeds `path.basename(s)` (posix): the characters after the last
separator, after trailing separators are stripped. -/
def basename (s : String) : String :=
  ⟨((stripTrailingSlashes s.data).reverse.takeWhile (· != '/')).reverse⟩

/-- Embeds `path.dirname(s)` (posix): everything before the last separator;
`"."` for separator-free relative names, `"/"` when only the root remains. -/
def dirname (s : String) : String :=
  let t := stripTrailingSlashes s.data
  let d := stripTrailingSlashes ((t.reverse.dropWhile (· != '/')).reverse)
  if d.isEmpty then (if s.data.head? = some '/' then "/" else ".") else ⟨d⟩

/-- Embeds `path.join(a, b)` for the shapes used by the candidate generator
(the second component never contains `..` segments, so no normalisation
beyond collapsing a leading `"."` directory is required). -/
def pjoin (a b : String) : String :=
  if a = "." ∨ a = "" then b
  else ⟨stripTrailingSlashes a.data ++ '/' :: b.data⟩

/-- Embeds `path.resolve(loadPath, candidate)` as the importer uses it: the
load paths are already absolute, so an absolute candidate is kept and a
relative one is joined onto the load path. -/
def presolve (dir cand : String) : String :=
  if cand.data.head? = some '/' then cand else pjoin dir cand

/-- Embeds `subdir(base, candidate)`: the candidate falls strictly under the
base directory. -/
def subdirB (base cand : String) : Bool :=
  (base.data ++ ['/']).isPrefixOf cand.data

/-- Embeds `path.relative(base, candidate)` in the case `subdir(base,
candidate)` holds: the candidate path with the base prefix and its separator
removed. -/
def relativeTo (base cand : String) : String :=
  ⟨cand.data.drop (base.data.length + 1)⟩

/-! ### Candidate generator -/

/-- Embeds the `eitherExtension = /\.s[ca]ss$/` test (equivalently the pair
`arg.endsWith('.sass') || arg.endsWith('.scss')` of the other source
version): the specifier carries a recognized stylesheet extension. -/
def hasExtension (arg : String) : Bool :=
  ".sass".data.isSuffixOf arg.data || ".scss".data.isSuffixOf arg.data

/-- Embeds the candidate-list construction of the importer
(`src/unnamed/part_000` lines 94-112): facts about how the import was
requested (leading partial marker on the basename, recognized extension)
select between one, two and four candidates, in source order.  The source
rebuilds this list identically for every load path of the walk. -/
def candidates (arg : String) : List String :=
  let argBasename := basename arg
  let argDirname := dirname arg
  let hasUnderscore := argBasename.data.head? = some '_'
  if ¬ hasUnderscore then
    if hasExtension arg then
      [pjoin argDirname ("_" ++ argBasename), arg]
    else
      [pjoin argDirname ("_" ++ argBasename ++ ".scss"),
       pjoin argDirname ("_" ++ argBasename ++ ".sass"),
       arg ++ ".scss",
       arg ++ ".sass"]
  else if hasExtension arg then [arg]
  else [arg ++ ".scss", arg ++ ".sass"]

/-- The candidate list for one search directory, each candidate resolved to
absolute form against that directory (the `path.resolve(loadPath,
candidate)` step at the head of the existence check). -/
def directoryCandidates (loadPath arg : String) : List String :=
  (candidates arg).map (presolve loadPath)

/-! ### Existence resolver -/

/-- Outcome of one disk read attempt (`sander.readFile`): the file exists
with these contents, is absent (an `ENOENT` rejection), or fails with some
other error code. -/
inductive DiskEntry
  | absent
  | file (contents : String)
  | ioError (code : String)
deriving DecidableEq, Repr

/-- The environment one import resolution runs against: the fake absolute
base directory, the virtual build graph (`builder.importFile`, keyed by
path relative to the base) and the disk (`sander.readFile`, keyed by
absolute path; paths not listed are absent). -/
structure Env where
  base : String
  graph : List (String × String)
  disk : List (String × DiskEntry)
deriving DecidableEq, Repr

/-- Association-list lookup used for the graph, the disk and the memo
table. -/
def lookupStr (m : List (String × String)) (p : String) : Option String :=
  (m.find? (fun e => e.1 = p)).map (fun e => e.2)

/-- Disk lookup; a path with no entry reads as absent (`ENOENT`). -/
def lookupDisk (d : List (String × DiskEntry)) (p : String) : DiskEntry :=
  ((d.find? (fun e => e.1 = p)).map (fun e => e.2)).getD .absent

/-- A successful resolution: `{file, contents}` as handed to `done`. -/
structure Resolved where
  file : String
  contents : String
deriving DecidableEq, Repr

/-- Embeds the body of the `Promise.map` callback of the importer
(`src/unnamed/part_000` lines 115-134): resolve the candidate against the
load path; if it falls under the base, answer from the virtual build graph
(`if (contents)` — the JS truthiness test, under which an empty string
reads as absent); otherwise read from disk, mapping `ENOENT` to absent and
rethrowing every other error.  The second component records whether the
disk was consulted, the call-count instrumentation the spec's testable
properties ask for. -/
def checkCandidate (env : Env) (loadPath cand : String) :
    Except String (Option Resolved) × Bool :=
  let c := presolve loadPath cand
  if subdirB env.base c then
    match lookupStr env.graph (relativeTo env.base c) with
    | some s => (if s = "" then .ok none else .ok (some ⟨c, s⟩), false)
    | none => (.ok none, false)
  else
    match lookupDisk env.disk c with
    | .file s => (.ok (some ⟨c, s⟩), true)
    | .absent => (.ok none, true)
    | .ioError code => (.error code, true)

/-- Embeds `yield Promise.map(candidates, ...).filter(x => x)`: every
candidate of one directory is checked, the existing ones are kept in
candidate order, and a non-`ENOENT` failure rejects the whole batch. -/
def checkAllCandidates (env : Env) (loadPath : String) :
    List String → Except String (List Resolved)
  | [] => .ok []
  | c :: cs =>
    match (checkCandidate env loadPath c).1 with
    | .error e => .error e
    | .ok none => checkAllCandidates env loadPath cs
    | .ok (some r) => (checkAllCandidates env loadPath cs).map (fun rs => r :: rs)

/-! ### Load-path walker -/

/-- Outcome of one import resolution, as the importer reports it to the
`done` callback: either a `Resolved` value, or one of the three failure
shapes (the ambiguity error carrying the existing candidates' files, the
importing file and the specifier as written; the not-found error carrying
the specifier; a rethrown I/O error). -/
inductive ImportResult
  | resolved (r : Resolved)
  | ambiguous (candidateFiles : List String) (importer arg : String)
  | notFound (arg : String)
  | ioError (code : String)
deriving DecidableEq, Repr

/-- The text of the not-found error the importer throws back to the
compiler. -/
def notFoundMessage (arg : String) : String :=
  "File to import not found or unreadable: " ++ arg

/-- Embeds the `for (const loadPath of loadPaths)` walk of the importer
(`src/unnamed/part_000` lines 93-157): per directory, check all candidates;
on zero matches continue, on exactly one return it, on two or more throw
the ambiguity error.  When the list is exhausted, throw the not-found
error.  The second component records which directories were consulted by
the existence resolver, for the call-count instrumentation the spec's
testable properties ask for. -/
def walkLoadPaths (env : Env) (arg importer : String) :
    List String → ImportResult × List String
  | [] => (.notFound arg, [])
  | lp :: rest =>
    match checkAllCandidates env lp (candidates arg) with
    | .error e => (.ioError e, [lp])
    | .ok [] =>
      let (r, q) := walkLoadPaths env arg importer rest
      (r, lp :: q)
    | .ok [r] => (.resolved r, [lp])
    | .ok rs => (.ambiguous (rs.map (fun r => r.file)) importer arg, [lp])

/-- Embeds the importer entry (`src/unnamed/part_000` lines 76-93): the
importing file is the absolute entry file when `prev` is the `stdin`
token; the search directories are the importer's directory followed by the
configured extra load paths. -/
def resolveImport (env : Env) (extraLoadPaths : List String)
    (arg prev absoluteEntryFile : String) : ImportResult :=
  let importer := if prev = "stdin" then absoluteEntryFile else prev
  (walkLoadPaths env arg importer (dirname importer :: extraLoadPaths)).1

/-! ### Top-level driver -/

/-- Embeds `file.replace(eitherExtension, '')`: the end-anchored regex
removes a recognized stylesheet extension (the final five characters) and
leaves every other name unchanged. -/
def stripStylesheetExt (file : String) : String :=
  if hasExtension file then ⟨file.data.take (file.data.length - 5)⟩ else file

/-- Embeds `const outputFile = file.replace(eitherExtension, '') + '.css'`. -/
def outputFile (file : String) : String :=
  stripStylesheetExt file ++ ".css"

/-- Modelled from the spec: the glob behaviour of the external `micromatch`
dependency is not part of this repository's sources; per the spec the
default `include` pattern (`'**/*.\x7bsass,scss\x7d'` in
`src/unnamed/part_000`) "matches all files with recognized extensions". -/
def includedByDefault (file : String) : Bool :=
  hasExtension file

/-- What the driver decides to do with one input file, before any compiler
interaction: pass the contents through (excluded file), produce no output
(partial), emit outputs directly (blank source short-circuit), or invoke
the external compiler. -/
inductive DriverAction
  | passThrough (contents : String)
  | ignore
  | emit (outputs : List (String × String))
  | invokeCompiler (file source out : String)
deriving DecidableEq, Repr

/-- Embeds the head of the `tripSass` generator (`src/unnamed/part_000`
lines 47-60): skip files the include filter rejects, block partials (a
basename whose first character is the partial marker), then short-circuit
a blank source to a blank output file; otherwise proceed to compile. -/
def tripSassStep (included : String → Bool) (file contents : String) :
    DriverAction :=
  if ¬ included file then .passThrough contents
  else if (basename file).data.head? = some '_' then .ignore
  else if contents = "" then .emit [(outputFile file, "")]
  else .invokeCompiler file contents (outputFile file)

/-! ### Compile-error translator -/

/-- The raw failure node-sass reports: a possibly multi-line message, a file
token (`"stdin"` for the entry file, otherwise a resolved import path), and
a location. -/
structure RawError where
  message : String
  file : String
  line : Nat
  column : Nat
deriving DecidableEq, Repr

/-- The structured `CodeError` payload the catch block constructs. -/
structure CodeErrorData where
  message : String
  file : String
  contents : Option String
  line : Nat
  column : Nat
deriving DecidableEq, Repr

/-- Embeds `error.message.split('\n')[0]`: the characters before the first
newline. -/
def firstLine (s : String) : String :=
  ⟨s.data.takeWhile (· != '\n')⟩

/-- Embeds the catch block of `src/unnamed/part_000` (lines 191-205): the
`CodeError` carries the first line of the raw message, the file token (the
absolute entry file when the token is `"stdin"`), the remembered contents
for that token (the entry source when `"stdin"`, otherwise the memo-table
entry, which is undefined — `none` — when no memo exists), and the raw
location. -/
def translateError (absoluteEntryFile source : String)
    (memos : List (String × String)) (e : RawError) : CodeErrorData :=
  { message := firstLine e.message
    file := if e.file = "stdin" then absoluteEntryFile else e.file
    contents := if e.file = "stdin" then some source else lookupStr memos e.file
    line := e.line
    column := e.column }

/-! ### Walker lemmas -/

/-- Search directories whose candidate batch comes back empty are consulted
and skipped: the walk over `ds ++ rest` behaves as the walk over `rest`,
with the skipped directories prepended to the consultation trace. -/
theorem walk_append_empty (env : Env) (arg importer : String)
    (ds rest : List String)
    (h : ∀ d ∈ ds, checkAllCandidates env d (candidates arg) = .ok []) :
    walkLoadPaths env arg importer (ds ++ rest) =
      ((walkLoadPaths env arg importer rest).1,
       ds ++ (walkLoadPaths env arg importer rest).2) := by
  induction ds with
  | nil => simp
  | cons d ds ih =>
    have hd : checkAllCandidates env d (candidates arg) = .ok [] := h d (by simp)
    have ih' := ih (fun d' h' => h d' (by simp [h']))
    simp [walkLoadPaths, hd, ih']

/-- C1: if every directory before `dk` in the search list (the importing
file's directory followed by the configured extra directories) yields no
existing candidate and `dk` yields exactly one, resolution returns that
candidate's `{file, contents}`, and the consultation trace stops at `dk`:
the directories after it are never queried. -/
theorem resolveImport_first_single_match (env : Env) (extra : List String)
    (arg prev entry : String) (r : Resolved)
    (ds₁ : List String) (dk : String) (ds₂ : List String)
    (hsplit : dirname (if prev = "stdin" then entry else prev) :: extra =
      ds₁ ++ dk :: ds₂)
    (h₁ : ∀ d ∈ ds₁, checkAllCandidates env d (candidates arg) = .ok [])
    (h₂ : checkAllCandidates env dk (candidates arg) = .ok [r]) :
    resolveImport env extra arg prev entry = .resolved r ∧
    (walkLoadPaths env arg (if prev = "stdin" then entry else prev)
      (ds₁ ++ dk :: ds₂)).2 = ds₁ ++ [dk] := by
  have hw : walkLoadPaths env arg (if prev = "stdin" then entry else prev)
      (ds₁ ++ dk :: ds₂) = (.resolved r, ds₁ ++ [dk]) := by
    rw [walk_append_empty env arg _ ds₁ (dk :: ds₂) h₁]
    simp [walkLoadPaths, h₂]
  refine ⟨?_, by rw [hw]⟩
  rw [resolveImport]
  rw [hsplit, hw]

/-- C2: if every directory before `dk` in the search list yields no existing
candidate and `dk` yields two or more, resolution fails with the ambiguity
error listing exactly those candidates' files and naming the importing file
and the specifier as written; the trace stops at `dk`, so the failure is
never retried against the later directories, whatever they contain. -/
theorem resolveImport_first_directory_ambiguous (env : Env)
    (extra : List String) (arg prev entry : String) (r₁ r₂ : Resolved)
    (rs : List Resolved)
    (ds₁ : List String) (dk : String) (ds₂ : List String)
    (hsplit : dirname (if prev = "stdin" then entry else prev) :: extra =
      ds₁ ++ dk :: ds₂)
    (h₁ : ∀ d ∈ ds₁, checkAllCandidates env d (candidates arg) = .ok [])
    (h₂ : checkAllCandidates env dk (candidates arg) = .ok (r₁ :: r₂ :: rs)) :
    resolveImport env extra arg prev entry =
      .ambiguous ((r₁ :: r₂ :: rs).map (fun r => r.file))
        (if prev = "stdin" then entry else prev) arg ∧
    (walkLoadPaths env arg (if prev = "stdin" then entry else prev)
      (ds₁ ++ dk :: ds₂)).2 = ds₁ ++ [dk] := by
  have hw : walkLoadPaths env arg (if prev = "stdin" then entry else prev)
      (ds₁ ++ dk :: ds₂) =
      (.ambiguous ((r₁ :: r₂ :: rs).map (fun r => r.file))
        (if prev = "stdin" then entry else prev) arg, ds₁ ++ [dk]) := by
    rw [walk_append_empty env arg _ ds₁ (dk :: ds₂) h₁]
    simp [walkLoadPaths, h₂]
  refine ⟨?_, by rw [hw]⟩
  rw [resolveImport]
  rw [hsplit, hw]

/-- C3: if every directory of the search list yields no existing candidate,
resolution fails with the not-found error naming the unresolved specifier
(thrown back to the compiler as `notFoundMessage arg`), after consulting
every directory. -/
theorem resolveImport_not_found (env : Env) (extra : List String)
    (arg prev entry : String)
    (h : ∀ d ∈ dirname (if prev = "stdin" then entry else prev) :: extra,
      checkAllCandidates env d (candidates arg) = .ok []) :
    resolveImport env extra arg prev entry = .notFound arg ∧
    (walkLoadPaths env arg (if prev = "stdin" then entry else prev)
      (dirname (if prev = "stdin" then entry else prev) :: extra)).2 =
      dirname (if prev = "stdin" then entry else prev) :: extra := by
  have hw : walkLoadPaths env arg (if prev = "stdin" then entry else prev)
      (dirname (if prev = "stdin" then entry else prev) :: extra) =
      (.notFound arg,
       dirname (if prev = "stdin" then entry else prev) :: extra) := by
    have := walk_append_empty env arg
      (if prev = "stdin" then entry else prev)
      (dirname (if prev = "stdin" then entry else prev) :: extra) [] h
    simpa [walkLoadPaths] using this
  exact ⟨by rw [resolveImport, hw], by rw [hw]⟩

/-- Environment for the C1 witness: nothing next to the entry file, one
graph match under `/B/lib2`, and a disk match under `/disk` that must never
be looked at. -/
def envC1 : Env :=
  { base := "/B"
    graph := [("lib2/_foo.scss", "X")]
    disk := [("/disk/_foo.scss", .file "Y")] }

/-- Witness for C1 at a concrete resolution: the second directory's single
match is returned and the third directory stays outside the trace. -/
theorem resolveImport_first_single_match_witness :
    resolveImport envC1 ["/B/lib2", "/disk"] "foo" "stdin" "/B/s/main.scss" =
      .resolved ⟨"/B/lib2/_foo.scss", "X"⟩ ∧
    (walkLoadPaths envC1 "foo"
      (if "stdin" = "stdin" then "/B/s/main.scss" else "stdin")
      (["/B/s"] ++ "/B/lib2" :: ["/disk"])).2 = ["/B/s"] ++ ["/B/lib2"] :=
  resolveImport_first_single_match envC1 ["/B/lib2", "/disk"] "foo" "stdin"
    "/B/s/main.scss" ⟨"/B/lib2/_foo.scss", "X"⟩ ["/B/s"] "/B/lib2" ["/disk"]
    rfl (by intro d hd; simp at hd; subst hd; rfl) rfl

/-- Environment for the C2 witness: nothing next to the entry file, two
graph matches under `/B/a`, and a single disk match under `/d` that must
not rescue the resolution. -/
def envC2 : Env :=
  { base := "/B"
    graph := [("a/_foo.scss", "P"), ("a/_foo.sass", "Q")]
    disk := [("/d/_foo.scss", .file "Z")] }

/-- Witness for C2 at a concrete resolution: the two matches of the second
directory produce the ambiguity failure even though the third directory
holds a single match, and the trace stops at the second directory. -/
theorem resolveImport_first_directory_ambiguous_witness :
    resolveImport envC2 ["/B/a", "/d"] "foo" "stdin" "/B/s/main.scss" =
      .ambiguous (([⟨"/B/a/_foo.scss", "P"⟩, ⟨"/B/a/_foo.sass", "Q"⟩] :
          List Resolved).map (fun r => r.file))
        (if "stdin" = "stdin" then "/B/s/main.scss" else "stdin") "foo" ∧
    (walkLoadPaths envC2 "foo"
      (if "stdin" = "stdin" then "/B/s/main.scss" else "stdin")
      (["/B/s"] ++ "/B/a" :: ["/d"])).2 = ["/B/s"] ++ ["/B/a"] :=
  resolveImport_first_directory_ambiguous envC2 ["/B/a", "/d"] "foo" "stdin"
    "/B/s/main.scss" ⟨"/B/a/_foo.scss", "P"⟩ ⟨"/B/a/_foo.sass", "Q"⟩ []
    ["/B/s"] "/B/a" ["/d"]
    rfl (by intro d hd; simp at hd; subst hd; rfl) rfl

/-- Environment for the C3 witness: an empty graph and an empty disk. -/
def envC3 : Env :=
  { base := "/B", graph := [], disk := [] }

/-- Witness for C3 at a concrete resolution: with no candidate anywhere,
resolution reports the not-found failure carrying the specifier, after
consulting both directories. -/
theorem resolveImport_not_found_witness :
    resolveImport envC3 ["/x"] "foo" "stdin" "/B/s/main.scss" =
      .notFound "foo" ∧
    (walkLoadPaths envC3 "foo"
      (if "stdin" = "stdin" then "/B/s/main.scss" else "stdin")
      (dirname (if "stdin" = "stdin" then "/B/s/main.scss" else "stdin") ::
        ["/x"])).2 =
      dirname (if "stdin" = "stdin" then "/B/s/main.scss" else "stdin") ::
        ["/x"] :=
  resolveImport_not_found envC3 ["/x"] "foo" "stdin" "/B/s/main.scss"
    (by intro d hd; simp at hd; rcases hd with rfl | rfl <;> rfl)

/-! ### Candidate-generator lemmas -/

/-- A prefix made of non-separator characters survives `takeWhile`. -/
theorem prefix_takeWhile_of_no_slash {p : List Char} :
    ∀ {l : List Char}, p <+: l → (∀ c ∈ p, (c != '/') = true) →
      p <+: l.takeWhile (· != '/') := by
  induction p with
  | nil => intro l _ _; simp
  | cons a p ih =>
    intro l h hp
    obtain ⟨t, rfl⟩ := h
    have ha : (a != '/') = true := hp a (by simp)
    rw [List.cons_append, List.takeWhile_cons, if_pos ha]
    exact List.cons_prefix_cons.mpr
      ⟨rfl, ih (List.prefix_append p t) (fun c hc => hp c (by simp [hc]))⟩

/-- A nonempty separator-free suffix means the string has no trailing
separator, so `stripTrailingSlashes` leaves it alone. -/
theorem stripTrailingSlashes_of_suffix {suf l : List Char}
    (hne : suf ≠ []) (hslash : ∀ c ∈ suf, (c != '/') = true)
    (hsuf : suf <:+ l) : stripTrailingSlashes l = l := by
  have hpre : suf.reverse <+: l.reverse := List.reverse_prefix.mpr hsuf
  obtain ⟨t, ht⟩ := hpre
  rw [stripTrailingSlashes]
  cases hsr : suf.reverse with
  | nil => exact absurd (by simpa using hsr) hne
  | cons b bs =>
    have hb : b ∈ suf := by
      rw [← List.mem_reverse, hsr]; exact List.mem_cons_self b bs
    have hbne : (b != '/') = true := hslash b hb
    have hbeq : (b == '/') = false := by
      simpa [bne] using hbne
    rw [← ht, hsr, List.cons_append, List.dropWhile_cons, hbeq]
    rw [if_neg (by simp), ← List.cons_append, ← hsr, ht, List.reverse_reverse]

/-- A nonempty separator-free suffix of a path is still a suffix of its
basename: the extension of a specifier survives into `basename`. -/
theorem suffix_basename {suf : List Char} {s : String}
    (hne : suf ≠ []) (hslash : ∀ c ∈ suf, (c != '/') = true)
    (hsuf : suf <:+ s.data) : suf <:+ (basename s).data := by
  rw [basename, stripTrailingSlashes_of_suffix hne hslash hsuf]
  show suf <:+ (s.data.reverse.takeWhile (· != '/')).reverse
  rw [← List.reverse_reverse suf, List.reverse_suffix]
  exact prefix_takeWhile_of_no_slash (List.reverse_prefix.mpr hsuf)
    (fun c hc => hslash c (List.mem_reverse.mp hc))

/-- A suffix of the joined component is a suffix of the joined path. -/
theorem suffix_pjoin {suf : List Char} (a : String) {b : String}
    (h : suf <:+ b.data) : suf <:+ (pjoin a b).data := by
  rw [pjoin]
  split
  · exact h
  · exact h.trans ⟨stripTrailingSlashes a.data ++ ['/'], by simp⟩

/-- C4: for a specifier whose basename does not start with the partial
marker and which lacks a recognized stylesheet extension, the candidate
list for each search directory is exactly the four-element sequence
partial-prefixed `.scss`, partial-prefixed `.sass`, bare `.scss`, bare
`.sass`, in that order. -/
theorem candidates_no_marker_no_ext (arg lp : String)
    (h₁ : (basename arg).data.head? ≠ some '_')
    (h₂ : hasExtension arg = false) :
    directoryCandidates lp arg =
      [presolve lp (pjoin (dirname arg) ("_" ++ basename arg ++ ".scss")),
       presolve lp (pjoin (dirname arg) ("_" ++ basename arg ++ ".sass")),
       presolve lp (arg ++ ".scss"),
       presolve lp (arg ++ ".sass")] := by
  simp [directoryCandidates, candidates, h₁, h₂]

/-- Witness for C4 at the concrete specifier `"foo/bar"`. -/
theorem candidates_no_marker_no_ext_witness :
    directoryCandidates "/L" "foo/bar" =
      ["/L/foo/_bar.scss", "/L/foo/_bar.sass",
       "/L/foo/bar.scss", "/L/foo/bar.sass"] := by
  have h := candidates_no_marker_no_ext "foo/bar" "/L" (by decide) (by decide)
  exact h

/-- C5: for a specifier whose basename does not start with the partial
marker but which carries a recognized stylesheet extension, the candidate
list for each search directory is exactly the pair partial-prefixed
sibling first, bare specifier second; and whichever of the two extensions
the specifier carries, the partial-prefixed sibling carries it too. -/
theorem candidates_ext_no_marker (arg lp : String)
    (h₁ : (basename arg).data.head? ≠ some '_')
    (h₂ : hasExtension arg = true) :
    directoryCandidates lp arg =
      [presolve lp (pjoin (dirname arg) ("_" ++ basename arg)),
       presolve lp arg] ∧
    ∀ ext : String, (ext = ".sass" ∨ ext = ".scss") →
      ext.data.isSuffixOf arg.data = true →
      ext.data.isSuffixOf
        (pjoin (dirname arg) ("_" ++ basename arg)).data = true := by
  constructor
  · simp [directoryCandidates, candidates, h₁, h₂]
  · intro ext hext hsuf
    have hsuf' : ext.data <:+ arg.data := List.isSuffixOf_iff_suffix.mp hsuf
    have hne : ext.data ≠ [] := by rcases hext with rfl | rfl <;> decide
    have hslash : ∀ c ∈ ext.data, (c != '/') = true := by
      rcases hext with rfl | rfl <;> decide
    have hbase : ext.data <:+ (basename arg).data :=
      suffix_basename hne hslash hsuf'
    have hmark : ext.data <:+ ("_" ++ basename arg).data := by
      rw [String.data_append]
      exact hbase.trans (List.suffix_append _ _)
    exact List.isSuffixOf_iff_suffix.mpr (suffix_pjoin (dirname arg) hmark)

/-- Witness for C5 at the concrete specifier `"lib/bar.scss"`. -/
theorem candidates_ext_no_marker_witness :
    directoryCandidates "/L" "lib/bar.scss" =
      ["/L/lib/_bar.scss", "/L/lib/bar.scss"] ∧
    ".scss".data.isSuffixOf
      (pjoin (dirname "lib/bar.scss")
        ("_" ++ basename "lib/bar.scss")).data = true := by
  have h := candidates_ext_no_marker "lib/bar.scss" "/L" (by decide) (by decide)
  exact ⟨h.1, h.2 ".scss" (Or.inr rfl) (by decide)⟩

/-! ### Existence-resolver theorems -/

/-- C6: a candidate under the virtual build graph's root is answered from
the graph, queried by the path relative to that root, and the disk is never
touched for it; a candidate outside the root is read from disk, where a
missing file reads as "does not exist" and any other read failure
propagates as an error rather than as "does not exist". -/
theorem checkCandidate_spec (env : Env) (lp cand : String) :
    (subdirB env.base (presolve lp cand) = true →
      (checkCandidate env lp cand).2 = false ∧
      ∀ s, lookupStr env.graph (relativeTo env.base (presolve lp cand)) =
          some s → s ≠ "" →
        (checkCandidate env lp cand).1 = .ok (some ⟨presolve lp cand, s⟩)) ∧
    (subdirB env.base (presolve lp cand) = false →
      (lookupDisk env.disk (presolve lp cand) = .absent →
        (checkCandidate env lp cand).1 = .ok none) ∧
      (∀ code, lookupDisk env.disk (presolve lp cand) = .ioError code →
        (checkCandidate env lp cand).1 = .error code)) := by
  constructor
  · intro hsub
    constructor
    · cases hg : lookupStr env.graph (relativeTo env.base (presolve lp cand)) with
      | none => simp [checkCandidate, hsub, hg]
      | some s =>
        by_cases hs : s = "" <;> simp [checkCandidate, hsub, hg, hs]
    · intro s hg hs
      simp [checkCandidate, hsub, hg, hs]
  · intro hsub
    exact ⟨fun hd => by simp [checkCandidate, hsub, hd],
           fun code hd => by simp [checkCandidate, hsub, hd]⟩

/-- Environment for the C6 witness: one graph file under the root, and a
disk holding one unreadable path. -/
def envC6 : Env :=
  { base := "/B"
    graph := [("g/_a.scss", "G")]
    disk := [("/d/_e.scss", .ioError "EACCES")] }

/-- Witness for C6 at concrete candidates: a graph hit with no disk touch,
an `ENOENT` mapped to "does not exist", and a permissions failure
propagated as an error. -/
theorem checkCandidate_spec_witness :
    (checkCandidate envC6 "/B/g" "_a.scss").2 = false ∧
    (checkCandidate envC6 "/B/g" "_a.scss").1 =
      .ok (some ⟨"/B/g/_a.scss", "G"⟩) ∧
    (checkCandidate envC6 "/d" "_a.scss").1 = .ok none ∧
    (checkCandidate envC6 "/d" "_e.scss").1 = .error "EACCES" := by
  have h₁ := checkCandidate_spec envC6 "/B/g" "_a.scss"
  have h₂ := checkCandidate_spec envC6 "/d" "_a.scss"
  have h₃ := checkCandidate_spec envC6 "/d" "_e.scss"
  exact ⟨(h₁.1 (by decide)).1,
         (h₁.1 (by decide)).2 "G" rfl (by decide),
         (h₂.2 (by decide)).1 rfl,
         (h₃.2 (by decide)).2 "EACCES" rfl⟩

/-- C10: a candidate under the graph root whose graph lookup yields no
entry, or an empty-string entry, is treated as nonexistent with no disk
read — whatever the disk holds at that path. -/
theorem checkCandidate_graph_miss_or_empty (env : Env) (lp cand : String)
    (hsub : subdirB env.base (presolve lp cand) = true)
    (hg : lookupStr env.graph (relativeTo env.base (presolve lp cand)) = none ∨
      lookupStr env.graph (relativeTo env.base (presolve lp cand)) = some "") :
    ∀ disk : List (String × DiskEntry),
      checkCandidate { env with disk := disk } lp cand = (.ok none, false) := by
  intro disk
  rcases hg with hg | hg <;> simp [checkCandidate, hsub, hg]

/-- Environment for the C10 witness: the graph holds an empty-string entry
for the candidate. -/
def envC10 : Env :=
  { base := "/B", graph := [("g/_a.scss", "")], disk := [] }

/-- Witness for C10: even with a real file on disk at the very same
absolute path, the empty graph entry reads as nonexistent and the disk is
not consulted. -/
theorem checkCandidate_graph_miss_or_empty_witness :
    checkCandidate { envC10 with disk := [("/B/g/_a.scss", .file "D")] }
      "/B/g" "_a.scss" = (.ok none, false) :=
  checkCandidate_graph_miss_or_empty envC10 "/B/g" "_a.scss" (by decide)
    (Or.inr rfl) [("/B/g/_a.scss", .file "D")]

/-! ### Compile-error-translator theorems -/

/-- C7 counterexample: at a failure whose file token has no memo entry, the
structured error keeps the raw token itself — not an "unknown file"
placeholder such as the spec's `unknown(file)` — and carries no contents
at all. -/
theorem translateError_no_placeholder_counterexample :
    (translateError "/p/entry.scss" "x" []
      ⟨"boom\ninternal noise", "/p/other.scss", 3, 7⟩).file =
      "/p/other.scss" ∧
    (translateError "/p/entry.scss" "x" []
      ⟨"boom\ninternal noise", "/p/other.scss", 3, 7⟩).file ≠
      "unknown(/p/other.scss)" ∧
    (translateError "/p/entry.scss" "x" []
      ⟨"boom\ninternal noise", "/p/other.scss", 3, 7⟩).contents = none := by
  decide

/-- C7 (amended): the structured error carries only the first line of the
raw message (a newline-free prefix of it), the location, the file token
(the entry file when the token is `stdin`), and the remembered contents
(the entry source for `stdin`, the memo entry otherwise); when no memo
exists the contents are simply absent — the raw token is kept, no
placeholder is substituted, and translation itself does not fail. -/
theorem translateError_spec (entry source : String)
    (memos : List (String × String)) (e : RawError) :
    ((translateError entry source memos e).message = firstLine e.message ∧
      '\n' ∉ (translateError entry source memos e).message.data ∧
      (translateError entry source memos e).message.data <+: e.message.data) ∧
    (translateError entry source memos e).line = e.line ∧
    (translateError entry source memos e).column = e.column ∧
    (e.file = "stdin" →
      (translateError entry source memos e).file = entry ∧
      (translateError entry source memos e).contents = some source) ∧
    (e.file ≠ "stdin" →
      (translateError entry source memos e).file = e.file ∧
      (translateError entry source memos e).contents = lookupStr memos e.file) := by
  refine ⟨⟨rfl, ?_, ?_⟩, rfl, rfl, ?_, ?_⟩
  · intro hmem
    have := List.mem_takeWhile_imp hmem
    simp at this
  · exact List.takeWhile_prefix _
  · intro h; constructor <;> simp [translateError, h]
  · intro h; constructor <;> simp [translateError, h]

/-- Witness for C7 (amended) at a concrete failure inside a memoized
import: the error carries that import's remembered text and the bare first
message line. -/
theorem translateError_spec_witness :
    (translateError "/p/e.scss" "src" [("/p/_f.scss", "T")]
      ⟨"bad\ninternal", "/p/_f.scss", 2, 5⟩).contents = some "T" ∧
    (translateError "/p/e.scss" "src" [("/p/_f.scss", "T")]
      ⟨"bad\ninternal", "/p/_f.scss", 2, 5⟩).message = "bad" := by
  have h := translateError_spec "/p/e.scss" "src" [("/p/_f.scss", "T")]
    ⟨"bad\ninternal", "/p/_f.scss", 2, 5⟩
  refine ⟨?_, ?_⟩
  · rw [(h.2.2.2.2 (by decide)).2]; rfl
  · rw [h.1.1]; rfl

/-! ### Driver theorems -/

/-- C8: every file carrying a recognized stylesheet extension is matched by
the default include pattern, and its output filename replaces that
extension with `.css`. -/
theorem outputFile_spec (stem ext : String)
    (hext : ext = ".sass" ∨ ext = ".scss") :
    includedByDefault (stem ++ ext) = true ∧
    outputFile (stem ++ ext) = stem ++ ".css" := by
  have hsfx : ext.data <:+ (stem ++ ext).data := by
    rw [String.data_append]; exact List.suffix_append _ _
  have h' := List.isSuffixOf_iff_suffix.mpr hsfx
  have hlen : ext.data.length = 5 := by rcases hext with rfl | rfl <;> decide
  have hx : hasExtension (stem ++ ext) = true := by
    rcases hext with rfl | rfl <;> simp [hasExtension, h']
  have hstrip : stripStylesheetExt (stem ++ ext) = stem := by
    rw [stripStylesheetExt, if_pos hx, String.data_append]
    have hl : (stem.data ++ ext.data).length - 5 = stem.data.length := by
      simp [List.length_append, hlen]
    rw [hl, List.take_left]
  exact ⟨by rw [includedByDefault, hx], by rw [outputFile, hstrip]⟩

/-- Witness for C8 at a concrete `.sass` input file. -/
theorem outputFile_spec_witness :
    includedByDefault ("app/main" ++ ".sass") = true ∧
    outputFile ("app/main" ++ ".sass") = "app/main" ++ ".css" :=
  outputFile_spec "app/main" ".sass" (Or.inl rfl)

/-- C9: an included, non-partial input file whose source is the empty
string makes the driver emit the derived output filename mapped to the
empty string, without ever reaching the compiler-invocation step. -/
theorem tripSassStep_empty_source (included : String → Bool) (file : String)
    (h₁ : included file = true)
    (h₂ : (basename file).data.head? ≠ some '_') :
    tripSassStep included file "" = .emit [(outputFile file, "")] ∧
    ∀ f s o, tripSassStep included file "" ≠ .invokeCompiler f s o := by
  have he : tripSassStep included file "" = .emit [(outputFile file, "")] := by
    simp [tripSassStep, h₁, h₂]
  exact ⟨he, fun f s o hc => by rw [he] at hc; exact DriverAction.noConfusion hc⟩

/-- Witness for C9 at a concrete blank entry file under the default
include filter. -/
theorem tripSassStep_empty_source_witness :
    tripSassStep includedByDefault "app/main.scss" "" =
      .emit [(outputFile "app/main.scss", "")] ∧
    tripSassStep includedByDefault "app/main.scss" "" ≠
      .invokeCompiler "app/main.scss" "" (outputFile "app/main.scss") := by
  have h := tripSassStep_empty_source includedByDefault "app/main.scss"
    (by decide) (by decide)
  exact ⟨h.1, h.2 _ _ _⟩

end TripSass
